import Mathlib

/-!
Verification of the PeerSync coordinator (`src/server.py`, with constants from
`src/config.py` and helpers from `src/utils.py`).

Modelling choices (shallow embedding):
* Python strings are `List Char` (`Str`); `str.startswith` is `isPref`,
  `needle in hay` is `strContains`, `str.split(' ', 1)` is `parse_command`,
  `str.split()` is `words`, `", ".join` is `joinComma`.
* Python dicts are insertion-ordered association lists with unique keys
  (`alookup` / `aupdate` / `aerase` mirror indexing, assignment and `del`;
  a dict never holds a duplicate key, so first-occurrence operations agree
  with dict semantics on all states built through the API).
* `time.time()` timestamps are modelled as exact integers (only subtraction
  and ordering comparisons are performed on them).
* Each handler is a pure function from server state to new state plus an
  optional reply datagram; a handler that lets a Python exception escape is
  modelled by the `HandlerResult.exn` outcome.
-/

namespace PeerSync

abbrev Str := List Char

abbrev Addr := Str × Nat

/-! ### Protocol constants, from `src/config.py` -/

def MSG_AUTH : Str := "auth".data
def MSG_HEARTBEAT : Str := "HBT".data
def MSG_OK : Str := "OK".data
def MSG_ERROR : Str := "ERR".data
def MSG_TCP : Str := "TCP".data

def CMD_LIST_ACTIVE_PEERS : Str := "lap".data
def CMD_LIST_PUBLISHED_FILES : Str := "lpf".data
def CMD_PUBLISH : Str := "pub".data
def CMD_UNPUBLISH : Str := "unp".data
def CMD_SEARCH : Str := "sch".data
def CMD_GET : Str := "get".data

def RESP_FILE_PUBLISHED : Str := "File published successfully".data
def RESP_FILE_UNPUBLISHED : Str := "File unpublished successfully".data
def RESP_FILE_UNPUB_FAILED : Str := "File unpublication failed".data
def RESP_NO_ACTIVE_PEERS : Str := "No active peers".data
def RESP_NO_PUBLISHED_FILES : Str := "No published files".data
def RESP_NO_FILES_FOUND : Str := "No files found".data
def RESP_FILE_NOT_FOUND : Str := "File not found".data
def RESP_NO_ACTIVE_PEER_HAS_FILE : Str := "No active peer has this file".data

def HEARTBEAT_TIMEOUT : Int := 3

/-! ### String helpers (Python string semantics) -/

/-- `isPref p s` is Python `s.startswith(p)`. -/
def isPref : Str → Str → Bool
  | [], _ => true
  | _ :: _, [] => false
  | a :: p, b :: m => decide (a = b) && isPref p m

/-- `strContains hay needle` is Python `needle in hay` (literal substring test). -/
def strContains : Str → Str → Bool
  | [], needle => isPref needle []
  | c :: t, needle => isPref needle (c :: t) || strContains t needle

/-- Split at the first space, if any: the engine of Python `msg.split(' ', 1)`. -/
def splitOnceAux : Str → Option (Str × Str)
  | [] => none
  | c :: t =>
    if c = ' ' then some ([], t)
    else
      match splitOnceAux t with
      | none => none
      | some (a, b) => some (c :: a, b)

/-- `parse_command` from `src/utils.py`: Python `message.split(' ', 1)`,
with `""` as the argument when there is no space. -/
def parse_command (msg : Str) : Str × Str :=
  match splitOnceAux msg with
  | none => (msg, [])
  | some (cmd, arg) => (cmd, arg)

/-- Accumulator for `words`. -/
def wordsAux : Str → Str → List Str
  | [], acc => if acc = [] then [] else [acc.reverse]
  | c :: t, acc =>
    if c.isWhitespace then
      if acc = [] then wordsAux t [] else acc.reverse :: wordsAux t []
    else wordsAux t (c :: acc)

/-- Python `message.split()`: split on whitespace runs, dropping empty pieces. -/
def words (msg : Str) : List Str := wordsAux msg []

/-- Python `", ".join(items)`. -/
def joinComma : List Str → Str
  | [] => []
  | [x] => x
  | x :: y :: t => x ++ ", ".data ++ joinComma (y :: t)

/-- Python `message.strip()` (used by `run` on every inbound datagram). -/
def stripStr (s : Str) : Str :=
  ((s.dropWhile Char.isWhitespace).reverse.dropWhile Char.isWhitespace).reverse

/-! ### Association lists: insertion-ordered dicts with unique keys -/

/-- Python `d[k]` / `k in d`, as an `Option`. -/
def alookup {α β : Type} [DecidableEq α] : List (α × β) → α → Option β
  | [], _ => none
  | (k, v) :: t, a => if k = a then some v else alookup t a

/-- Python `d[k] = v`: overwrite in place, or append a new key at the end. -/
def aupdate {α β : Type} [DecidableEq α] : List (α × β) → α → β → List (α × β)
  | [], k, v => [(k, v)]
  | (k₀, v₀) :: t, k, v =>
    if k₀ = k then (k, v) :: t else (k₀, v₀) :: aupdate t k v

/-- Python `del d[k]`. -/
def aerase {α β : Type} [DecidableEq α] : List (α × β) → α → List (α × β)
  | [], _ => []
  | (k₀, v₀) :: t, k => if k₀ = k then t else (k₀, v₀) :: aerase t k

/-- Python `list.remove(x)`: drop the first occurrence. -/
def removeFirst {α : Type} [DecidableEq α] : List α → α → List α
  | [], _ => []
  | x :: t, a => if x = a then t else x :: removeFirst t a

/-! ### Data model (`PeerSyncServer.__init__`) -/

/-- One value of `self.active_clients`: the per-session record
`{'username': ..., 'last_heartbeat': ..., 'tcp_address': ...}`. -/
structure ClientData where
  username : Str
  last_heartbeat : Int
  tcp_address : Option (Str × Str)
deriving DecidableEq

/-- The server's mutable state: `self.active_clients`, `self.published_files`
and the read-only `self.credentials`. -/
structure ServerState where
  active_clients : List (Addr × ClientData)
  published_files : List (Str × List Str)
  credentials : List (Str × Str)
deriving DecidableEq

/-! ### Publication registry operations
(the registry-mutating cores of `handle_publish_file` / `handle_unpublish_file`) -/

/-- The registry update performed by `handle_publish_file`: append `username`
to the entry for `filename` unless already present, creating the entry if
absent. -/
def registryPublish (reg : List (Str × List Str)) (filename username : Str) :
    List (Str × List Str) :=
  match alookup reg filename with
  | some pubs =>
    if username ∈ pubs then reg else aupdate reg filename (pubs ++ [username])
  | none => aupdate reg filename [username]

/-- Outcome reported by the unpublish operation. -/
inductive UnpubOutcome where
  | unpublished
  | failed
deriving DecidableEq

/-- The registry update performed by `handle_unpublish_file`: remove
`username` from the entry for `filename` when present (deleting the entry if
its publisher list becomes empty), otherwise fail without changing anything. -/
def registryUnpublish (reg : List (Str × List Str)) (filename username : Str) :
    List (Str × List Str) × UnpubOutcome :=
  match alookup reg filename with
  | some pubs =>
    if username ∈ pubs then
      let pubs' := removeFirst pubs username
      (if pubs' = [] then aerase reg filename else aupdate reg filename pubs',
       .unpublished)
    else (reg, .failed)
  | none => (reg, .failed)

/-! ### Per-message handlers (`src/server.py`) -/

/-- `check_for_inactive_clients`: delete every session whose last heartbeat is
older than `HEARTBEAT_TIMEOUT`; `published_files` and `credentials` are not
touched. -/
def check_for_inactive_clients (now : Int) (s : ServerState) : ServerState :=
  { s with active_clients :=
      s.active_clients.filter fun p =>
        decide (now - p.2.last_heartbeat ≤ HEARTBEAT_TIMEOUT) }

/-- `process_heartbeat`: refresh `last_heartbeat` when the sender has a
session, otherwise do nothing. -/
def process_heartbeat (now : Int) (addr : Addr) (s : ServerState) : ServerState :=
  match alookup s.active_clients addr with
  | none => s
  | some d =>
    { s with active_clients :=
        aupdate s.active_clients addr { d with last_heartbeat := now } }

/-- `authenticate_client`: reject malformed messages, reject a username that
is already active (checked before the password), otherwise accept exactly when
the credential table maps the username to the given password. -/
def authenticate_client (now : Int) (addr : Addr) (msg : Str) (s : ServerState) :
    ServerState × Option Str :=
  match words msg with
  | [_, username, password] =>
    if s.active_clients.any (fun p => decide (p.2.username = username)) then
      (s, some MSG_ERROR)
    else if alookup s.credentials username = some password then
      ({ s with active_clients :=
          aupdate s.active_clients addr ⟨username, now, none⟩ }, some MSG_OK)
    else (s, some MSG_ERROR)
  | _ => (s, some MSG_ERROR)

/-- `process_tcp_address`: store the reported data endpoint on the sender's
session; a malformed payload (the `ValueError` branch) or an unknown sender is
ignored. -/
def process_tcp_address (addr : Addr) (msg : Str) (s : ServerState) : ServerState :=
  match words msg with
  | [_, tcp_ip, tcp_port] =>
    match alookup s.active_clients addr with
    | none => s
    | some d =>
      { s with active_clients :=
          aupdate s.active_clients addr { d with tcp_address := some (tcp_ip, tcp_port) } }
  | _ => s

/-- `handle_publish_file`: silently ignore unknown senders, otherwise publish
and always reply `RESP_FILE_PUBLISHED`. -/
def handle_publish_file (addr : Addr) (msg : Str) (s : ServerState) :
    ServerState × Option Str :=
  let filename := (parse_command msg).2
  match alookup s.active_clients addr with
  | none => (s, none)
  | some d =>
    ({ s with published_files := registryPublish s.published_files filename d.username },
     some RESP_FILE_PUBLISHED)

/-- `handle_unpublish_file`: silently ignore unknown senders, otherwise reply
according to the registry outcome. -/
def handle_unpublish_file (addr : Addr) (msg : Str) (s : ServerState) :
    ServerState × Option Str :=
  let filename := (parse_command msg).2
  match alookup s.active_clients addr with
  | none => (s, none)
  | some d =>
    match registryUnpublish s.published_files filename d.username with
    | (reg, .unpublished) =>
      ({ s with published_files := reg }, some RESP_FILE_UNPUBLISHED)
    | (_, .failed) => (s, some RESP_FILE_UNPUB_FAILED)

/-- `handle_list_active_peers`: return early (no datagram at all) for unknown
senders; otherwise list every other session's username, or the sentinel. -/
def handle_list_active_peers (addr : Addr) (s : ServerState) :
    ServerState × Option Str :=
  match alookup s.active_clients addr with
  | none => (s, none)
  | some _ =>
    let active_peers :=
      (s.active_clients.filter (fun p => decide (p.1 ≠ addr))).map
        (fun p => p.2.username)
    (s, some (if active_peers = [] then RESP_NO_ACTIVE_PEERS else joinComma active_peers))

/-- `handle_list_published_files`: return early (no datagram at all) for
unknown senders; otherwise list every published filename, or the sentinel. -/
def handle_list_published_files (addr : Addr) (s : ServerState) :
    ServerState × Option Str :=
  match alookup s.active_clients addr with
  | none => (s, none)
  | some _ =>
    (s, some (if s.published_files = [] then RESP_NO_PUBLISHED_FILES
              else joinComma (s.published_files.map Prod.fst)))

/-- The `matching_files` comprehension in `handle_search_files`: filenames
containing the substring whose publisher list does not contain the
requester. -/
def matching_files (reg : List (Str × List Str)) (substring username : Str) :
    List Str :=
  (reg.filter (fun p => strContains p.1 substring && decide (username ∉ p.2))).map
    Prod.fst

/-- `handle_search_files`: silently ignore unknown senders; otherwise reply
with the matching filenames or the `RESP_NO_FILES_FOUND` sentinel. -/
def handle_search_files (addr : Addr) (msg : Str) (s : ServerState) :
    ServerState × Option Str :=
  match alookup s.active_clients addr with
  | none => (s, none)
  | some d =>
    let substring := (parse_command msg).2
    let files := matching_files s.published_files substring d.username
    (s, some (if files = [] then RESP_NO_FILES_FOUND else joinComma files))

/-- The inner `for addr, data in self.active_clients.items()` scan of
`handle_get_request`: the first session whose username matches. (The Python
code remembers the address and re-indexes the dict with it; since dict keys
are unique this retrieves exactly the entry found here.) -/
def find_peer (clients : List (Addr × ClientData)) (u : Str) :
    Option (Addr × ClientData) :=
  match clients with
  | [] => none
  | (a, d) :: t => if d.username = u then some (a, d) else find_peer t u

/-- What a handler invocation does, as observed by the control loop. -/
inductive HandlerResult where
  | reply (r : Str)
  | silent
  | exn
deriving DecidableEq

/-- The publisher loop of `handle_get_request`: skip the requester, skip
publishers with no session, skip sessions with an unset `tcp_address`, and
answer with the first qualifying publisher's formatted endpoint. -/
def get_loop (clients : List (Addr × ClientData)) (requesting : Str) :
    List Str → Option Str
  | [] => none
  | p :: rest =>
    if p = requesting then get_loop clients requesting rest
    else
      match find_peer clients p with
      | none => get_loop clients requesting rest
      | some (_, d) =>
        match d.tcp_address with
        | some (ip, port) => some (p ++ ' ' :: (ip ++ ' ' :: port))
        | none => get_loop clients requesting rest

/-- `handle_get_request`. Note: unlike every other handler, it indexes
`self.active_clients[client_address]` without a membership check, so an
unauthenticated sender raises `KeyError` (modelled by `.exn`). -/
def handle_get_request (addr : Addr) (msg : Str) (s : ServerState) :
    HandlerResult :=
  let filename := (parse_command msg).2
  match alookup s.active_clients addr with
  | none => .exn
  | some d =>
    match alookup s.published_files filename with
    | none => .reply RESP_FILE_NOT_FOUND
    | some pubs =>
      match get_loop s.active_clients d.username pubs with
      | some r => .reply r
      | none => .reply RESP_NO_ACTIVE_PEER_HAS_FILE

/-! ### Dispatch (`PeerSyncServer.run`) -/

/-- The message classes of the dispatcher. -/
inductive Cmd where
  | heartbeat
  | publish
  | unpublish
  | tcp
  | listPeers
  | listFiles
  | search
  | get
  | auth
  | unknown
deriving DecidableEq

/-- The `if`/`elif` routing chain in `run`, applied to the stripped message:
exact equality for `HBT`, `lap`, `lpf`; `startswith` for the rest. -/
def dispatch (msg : Str) : Cmd :=
  if msg = MSG_HEARTBEAT then .heartbeat
  else if isPref CMD_PUBLISH msg then .publish
  else if isPref CMD_UNPUBLISH msg then .unpublish
  else if isPref MSG_TCP msg then .tcp
  else if msg = CMD_LIST_ACTIVE_PEERS then .listPeers
  else if msg = CMD_LIST_PUBLISHED_FILES then .listFiles
  else if isPref CMD_SEARCH msg then .search
  else if isPref CMD_GET msg then .get
  else if isPref MSG_AUTH msg then .auth
  else .unknown

/-- Lift a `(state, optional reply)` handler outcome to a `HandlerResult`. -/
def liftReply (p : ServerState × Option Str) : ServerState × HandlerResult :=
  (p.1, match p.2 with
        | some r => .reply r
        | none => .silent)

/-- One dispatched handler invocation on a stripped message. -/
def step (now : Int) (addr : Addr) (msg : Str) (s : ServerState) :
    ServerState × HandlerResult :=
  match dispatch msg with
  | .heartbeat => (process_heartbeat now addr s, .silent)
  | .publish => liftReply (handle_publish_file addr msg s)
  | .unpublish => liftReply (handle_unpublish_file addr msg s)
  | .tcp => (process_tcp_address addr msg s, .silent)
  | .listPeers => liftReply (handle_list_active_peers addr s)
  | .listFiles => liftReply (handle_list_published_files addr s)
  | .search => liftReply (handle_search_files addr msg s)
  | .get => (s, handle_get_request addr msg s)
  | .auth => liftReply (authenticate_client now addr msg s)
  | .unknown => (s, .reply MSG_ERROR)

/-- One iteration of the `run` receive loop on a raw decoded datagram: strip,
dispatch, and let the enclosing `except Exception` clause turn an escaped
handler fault into "no reply, state unchanged, keep looping". -/
def run_step (now : Int) (addr : Addr) (raw : Str) (s : ServerState) :
    ServerState × Option Str :=
  match step now addr (stripStr raw) s with
  | (s', .reply r) => (s', some r)
  | (s', .silent) => (s', none)
  | (_, .exn) => (s, none)

/-! ### Spec-side definitions used to state the claims -/

/-- The filenames a claim-literal reading of `search(substring,
excludingUsername)` would return: substring matches whose publisher set,
after removing the requester, is still non-empty. -/
def searchSpecMatches (reg : List (Str × List Str)) (substring username : Str) :
    List Str :=
  (reg.filter fun p =>
      strContains p.1 substring && p.2.any fun v => decide (v ≠ username)).map
    Prod.fst

/-- The leading space-separated token of a message (empty for an all-blank
message). -/
def leadingToken (msg : Str) : Str := (words msg).headD []

/-- A publisher username qualifies for a GET reply: it is not the requester,
it has a current session, and that session's data endpoint is set. -/
def eligible (clients : List (Addr × ClientData)) (requesting p : Str) : Bool :=
  decide (p ≠ requesting) &&
    match find_peer clients p with
    | none => false
    | some q => q.2.tcp_address.isSome

/-- The `"<username> <host> <port>"` reply GET sends for publisher `p`
(junk when `p` is not eligible; only used on eligible publishers). -/
def formatPeerReply (clients : List (Addr × ClientData)) (p : Str) : Str :=
  match find_peer clients p with
  | some q =>
    match q.2.tcp_address with
    | some (ip, port) => p ++ ' ' :: (ip ++ ' ' :: port)
    | none => []
  | none => []

/-- A publish or unpublish request for a fixed filename. -/
inductive PubOp where
  | pub (u : Str)
  | unp (u : Str)

/-- Apply one operation for filename `f` to the registry, the way the
handlers do. -/
def applyPubOp (f : Str) (reg : List (Str × List Str)) :
    PubOp → List (Str × List Str)
  | .pub u => registryPublish reg f u
  | .unp u => (registryUnpublish reg f u).1

/-- Apply a sequence of operations for filename `f` in order. -/
def applyPubOps (f : Str) (reg : List (Str × List Str)) (ops : List PubOp) :
    List (Str × List Str) :=
  ops.foldl (applyPubOp f) reg

/-- The spec's net set-level effect of a publish/unpublish sequence:
idempotent insert, no-op erase-when-absent. -/
def netEffect (init : Finset Str) (ops : List PubOp) : Finset Str :=
  ops.foldl
    (fun acc op =>
      match op with
      | .pub u => insert u acc
      | .unp u => acc.erase u)
    init

/-- The publisher list currently recorded for `f` (empty when unregistered). -/
def publishersOf (reg : List (Str × List Str)) (f : Str) : List Str :=
  (alookup reg f).getD []

/-- Well-formedness every Python dict has: no duplicate keys. -/
abbrev keysNodup {α β : Type} [DecidableEq α] (l : List (α × β)) : Prop :=
  (l.map Prod.fst).Nodup

/-- The Publication Registry invariant: no entry has an empty publisher
list. -/
abbrev regInvariant (reg : List (Str × List Str)) : Prop :=
  ∀ e ∈ reg, e.2 ≠ []

/-- Claim C1 as stated: for every authenticated requester, SEARCH returns
exactly the substring matches whose publisher set minus the requester is
non-empty, with the sentinel when none qualify. -/
def C1Statement : Prop :=
  ∀ (s : ServerState) (addr : Addr) (d : ClientData) (msg : Str),
    alookup s.active_clients addr = some d →
    handle_search_files addr msg s =
      (s, some
        (if searchSpecMatches s.published_files (parse_command msg).2 d.username = []
         then RESP_NO_FILES_FOUND
         else joinComma
           (searchSpecMatches s.published_files (parse_command msg).2 d.username)))

/-- Claim C4 as stated: dispatch classifies by the leading space-separated
token being exactly the command literal, and everything else gets `ERR`. -/
def C4Statement : Prop :=
  ∀ msg : Str,
    (dispatch msg = .publish ↔ leadingToken msg = CMD_PUBLISH) ∧
    (dispatch msg = .unpublish ↔ leadingToken msg = CMD_UNPUBLISH) ∧
    (dispatch msg = .search ↔ leadingToken msg = CMD_SEARCH) ∧
    (dispatch msg = .get ↔ leadingToken msg = CMD_GET) ∧
    (dispatch msg = .auth ↔ leadingToken msg = MSG_AUTH) ∧
    (dispatch msg = .heartbeat ↔ leadingToken msg = MSG_HEARTBEAT) ∧
    (dispatch msg = .tcp ↔ leadingToken msg = MSG_TCP) ∧
    (leadingToken msg ∉
        [CMD_PUBLISH, CMD_UNPUBLISH, CMD_SEARCH, CMD_GET, MSG_AUTH,
          MSG_HEARTBEAT, MSG_TCP] →
      ∀ (now : Int) (addr : Addr) (st : ServerState),
        step now addr msg st = (st, .reply MSG_ERROR))

/-- Claim C6 as stated: every publish/unpublish preserves the no-empty-entry
invariant, and (for every invariant-satisfying start state) publish then
unpublish of the same `(f, u)` leaves `f` unregistered. -/
def C6Statement : Prop :=
  (∀ (reg : List (Str × List Str)) (f u : Str), regInvariant reg →
      regInvariant (registryPublish reg f u) ∧
      regInvariant (registryUnpublish reg f u).1) ∧
  ∀ (reg : List (Str × List Str)) (f u : Str), regInvariant reg →
    f ∉ (applyPubOps f reg [PubOp.pub u, PubOp.unp u]).map Prod.fst

/-! ### Supporting lemmas -/

theorem isPref_head_ne (p q m : Str) (hne : p.headD ' ' ≠ q.headD ' ')
    (hp : p ≠ []) (hq : q ≠ []) (h : isPref p m = true) : isPref q m = false := by
  match p, q, m with
  | [], _, _ => exact absurd rfl hp
  | _ :: _, [], _ => exact absurd rfl hq
  | a :: p', b :: q', [] => simp [isPref] at h
  | a :: p', b :: q', c :: t =>
    simp only [isPref, Bool.and_eq_true, decide_eq_true_eq] at h
    obtain ⟨rfl, -⟩ := h
    simp only [List.headD_cons] at hne
    simp [isPref, decide_eq_false (Ne.symm hne)]

theorem ne_lit_of_isPref (p lit m : Str) (h : isPref p m = true)
    (hcomp : isPref p lit = false) : m ≠ lit := by
  intro he
  rw [he, hcomp] at h
  exact Bool.false_ne_true h

theorem dispatch_eq_heartbeat (msg : Str) :
    dispatch msg = .heartbeat ↔ msg = MSG_HEARTBEAT := by
  unfold dispatch
  split_ifs with h1 h2 h3 h4 h5 h6 h7 h8 h9 <;> simp [h1]

theorem dispatch_eq_publish (msg : Str) :
    dispatch msg = .publish ↔ isPref CMD_PUBLISH msg = true := by
  unfold dispatch
  split_ifs with h1 h2 h3 h4 h5 h6 h7 h8 h9
  · rw [h1]; decide
  all_goals simp [h2]

theorem dispatch_eq_unpublish (msg : Str) :
    dispatch msg = .unpublish ↔ isPref CMD_UNPUBLISH msg = true := by
  unfold dispatch
  split_ifs with h1 h2 h3 h4 h5 h6 h7 h8 h9
  · rw [h1]; decide
  · simp [isPref_head_ne CMD_PUBLISH CMD_UNPUBLISH msg (by decide) (by decide) (by decide) h2]
  all_goals simp [h3]

theorem dispatch_eq_tcp (msg : Str) :
    dispatch msg = .tcp ↔ isPref MSG_TCP msg = true := by
  unfold dispatch
  split_ifs with h1 h2 h3 h4 h5 h6 h7 h8 h9
  · rw [h1]; decide
  · simp [isPref_head_ne CMD_PUBLISH MSG_TCP msg (by decide) (by decide) (by decide) h2]
  · simp [isPref_head_ne CMD_UNPUBLISH MSG_TCP msg (by decide) (by decide) (by decide) h3]
  all_goals simp [h4]

theorem dispatch_eq_listPeers (msg : Str) :
    dispatch msg = .listPeers ↔ msg = CMD_LIST_ACTIVE_PEERS := by
  unfold dispatch
  split_ifs with h1 h2 h3 h4 h5 h6 h7 h8 h9
  · rw [h1]; decide
  · simp [ne_lit_of_isPref CMD_PUBLISH CMD_LIST_ACTIVE_PEERS msg h2 (by decide)]
  · simp [ne_lit_of_isPref CMD_UNPUBLISH CMD_LIST_ACTIVE_PEERS msg h3 (by decide)]
  · simp [ne_lit_of_isPref MSG_TCP CMD_LIST_ACTIVE_PEERS msg h4 (by decide)]
  all_goals simp [h5]

theorem dispatch_eq_listFiles (msg : Str) :
    dispatch msg = .listFiles ↔ msg = CMD_LIST_PUBLISHED_FILES := by
  unfold dispatch
  split_ifs with h1 h2 h3 h4 h5 h6 h7 h8 h9
  · rw [h1]; decide
  · simp [ne_lit_of_isPref CMD_PUBLISH CMD_LIST_PUBLISHED_FILES msg h2 (by decide)]
  · simp [ne_lit_of_isPref CMD_UNPUBLISH CMD_LIST_PUBLISHED_FILES msg h3 (by decide)]
  · simp [ne_lit_of_isPref MSG_TCP CMD_LIST_PUBLISHED_FILES msg h4 (by decide)]
  · rw [h5]; decide
  all_goals simp [h6]

theorem dispatch_eq_search (msg : Str) :
    dispatch msg = .search ↔ isPref CMD_SEARCH msg = true := by
  unfold dispatch
  split_ifs with h1 h2 h3 h4 h5 h6 h7 h8 h9
  · rw [h1]; decide
  · simp [isPref_head_ne CMD_PUBLISH CMD_SEARCH msg (by decide) (by decide) (by decide) h2]
  · simp [isPref_head_ne CMD_UNPUBLISH CMD_SEARCH msg (by decide) (by decide) (by decide) h3]
  · simp [isPref_head_ne MSG_TCP CMD_SEARCH msg (by decide) (by decide) (by decide) h4]
  · rw [h5]; decide
  · rw [h6]; decide
  all_goals simp [h7]

theorem dispatch_eq_get (msg : Str) :
    dispatch msg = .get ↔ isPref CMD_GET msg = true := by
  unfold dispatch
  split_ifs with h1 h2 h3 h4 h5 h6 h7 h8 h9
  · rw [h1]; decide
  · simp [isPref_head_ne CMD_PUBLISH CMD_GET msg (by decide) (by decide) (by decide) h2]
  · simp [isPref_head_ne CMD_UNPUBLISH CMD_GET msg (by decide) (by decide) (by decide) h3]
  · simp [isPref_head_ne MSG_TCP CMD_GET msg (by decide) (by decide) (by decide) h4]
  · rw [h5]; decide
  · rw [h6]; decide
  · simp [isPref_head_ne CMD_SEARCH CMD_GET msg (by decide) (by decide) (by decide) h7]
  all_goals simp [h8]

theorem dispatch_eq_auth (msg : Str) :
    dispatch msg = .auth ↔ isPref MSG_AUTH msg = true := by
  unfold dispatch
  split_ifs with h1 h2 h3 h4 h5 h6 h7 h8 h9
  · rw [h1]; decide
  · simp [isPref_head_ne CMD_PUBLISH MSG_AUTH msg (by decide) (by decide) (by decide) h2]
  · simp [isPref_head_ne CMD_UNPUBLISH MSG_AUTH msg (by decide) (by decide) (by decide) h3]
  · simp [isPref_head_ne MSG_TCP MSG_AUTH msg (by decide) (by decide) (by decide) h4]
  · rw [h5]; decide
  · rw [h6]; decide
  · simp [isPref_head_ne CMD_SEARCH MSG_AUTH msg (by decide) (by decide) (by decide) h7]
  · simp [isPref_head_ne CMD_GET MSG_AUTH msg (by decide) (by decide) (by decide) h8]
  all_goals simp [h9]

theorem dispatch_eq_unknown (msg : Str) :
    dispatch msg = .unknown ↔
      (msg ≠ MSG_HEARTBEAT ∧ isPref CMD_PUBLISH msg = false ∧
       isPref CMD_UNPUBLISH msg = false ∧ isPref MSG_TCP msg = false ∧
       msg ≠ CMD_LIST_ACTIVE_PEERS ∧ msg ≠ CMD_LIST_PUBLISHED_FILES ∧
       isPref CMD_SEARCH msg = false ∧ isPref CMD_GET msg = false ∧
       isPref MSG_AUTH msg = false) := by
  unfold dispatch
  split_ifs with h1 h2 h3 h4 h5 h6 h7 h8 h9
  · simp [h1]
  · simp [h2]
  · simp [h3]
  · simp [h4]
  · simp [h5]
  · simp [h6]
  · simp [h7]
  · simp [h8]
  · simp [h9]
  · simp_all

theorem alookup_aupdate_self {α β : Type} [DecidableEq α]
    (l : List (α × β)) (k : α) (v : β) : alookup (aupdate l k v) k = some v := by
  induction l with
  | nil => simp [aupdate, alookup]
  | cons e t ih =>
    obtain ⟨k₀, v₀⟩ := e
    by_cases h : k₀ = k
    · simp [aupdate, h, alookup]
    · simp [aupdate, h, alookup, ih]

theorem alookup_eq_none_of_not_mem_keys {α β : Type} [DecidableEq α]
    {l : List (α × β)} {k : α} (h : k ∉ l.map Prod.fst) : alookup l k = none := by
  induction l with
  | nil => rfl
  | cons e t ih =>
    obtain ⟨k₀, v₀⟩ := e
    simp only [List.map_cons, List.mem_cons] at h
    push_neg at h
    simp [alookup, Ne.symm h.1, ih h.2]

theorem mem_of_alookup_eq_some {α β : Type} [DecidableEq α]
    {l : List (α × β)} {k : α} {v : β} (h : alookup l k = some v) : (k, v) ∈ l := by
  induction l with
  | nil => simp [alookup] at h
  | cons e t ih =>
    obtain ⟨k₀, v₀⟩ := e
    by_cases hk : k₀ = k
    · subst hk
      simp [alookup] at h
      simp [h]
    · simp only [alookup, if_neg hk] at h
      exact List.mem_cons_of_mem _ (ih h)

theorem map_fst_aupdate {α β : Type} [DecidableEq α]
    (l : List (α × β)) (k : α) (v : β) :
    (aupdate l k v).map Prod.fst =
      if k ∈ l.map Prod.fst then l.map Prod.fst else l.map Prod.fst ++ [k] := by
  induction l with
  | nil => simp [aupdate]
  | cons e t ih =>
    obtain ⟨k₀, v₀⟩ := e
    by_cases h : k₀ = k
    · simp [aupdate, h]
    · simp only [aupdate, if_neg h, List.map_cons, ih]
      by_cases hm : k ∈ t.map Prod.fst <;>
        simp [hm, Ne.symm h]

theorem keysNodup_aupdate {α β : Type} [DecidableEq α]
    {l : List (α × β)} (k : α) (v : β) (h : keysNodup l) :
    keysNodup (aupdate l k v) := by
  unfold keysNodup at h ⊢
  rw [map_fst_aupdate]
  by_cases hm : k ∈ l.map Prod.fst
  · simpa [hm]
  · simp [hm, List.nodup_append, h]

theorem map_fst_aerase {α β : Type} [DecidableEq α]
    (l : List (α × β)) (k : α) :
    (aerase l k).map Prod.fst = removeFirst (l.map Prod.fst) k := by
  induction l with
  | nil => rfl
  | cons e t ih =>
    obtain ⟨k₀, v₀⟩ := e
    by_cases h : k₀ = k <;> simp [aerase, removeFirst, h, ih]

theorem removeFirst_sublist {α : Type} [DecidableEq α] (l : List α) (a : α) :
    List.Sublist (removeFirst l a) l := by
  induction l with
  | nil => simp [removeFirst]
  | cons x t ih =>
    by_cases h : x = a
    · simp [removeFirst, h]
    · simp only [removeFirst, if_neg h]
      exact ih.cons₂ x

theorem removeFirst_of_not_mem {α : Type} [DecidableEq α] {l : List α} {a : α}
    (h : a ∉ l) : removeFirst l a = l := by
  induction l with
  | nil => rfl
  | cons x t ih =>
    simp only [List.mem_cons] at h
    push_neg at h
    simp [removeFirst, Ne.symm h.1, ih h.2]

theorem not_mem_removeFirst_self {α : Type} [DecidableEq α] {l : List α} {a : α}
    (h : l.Nodup) : a ∉ removeFirst l a := by
  induction l with
  | nil => simp [removeFirst]
  | cons x t ih =>
    rw [List.nodup_cons] at h
    by_cases hx : x = a
    · subst hx
      simp [removeFirst, h.1]
    · simp [removeFirst, hx, Ne.symm hx, ih h.2]

theorem toFinset_removeFirst {α : Type} [DecidableEq α] {l : List α} (a : α)
    (h : l.Nodup) : (removeFirst l a).toFinset = l.toFinset.erase a := by
  induction l with
  | nil => simp [removeFirst]
  | cons x t ih =>
    rw [List.nodup_cons] at h
    by_cases hx : x = a
    · subst hx
      simp [removeFirst, Finset.erase_insert, List.mem_toFinset, h.1]
    · simp only [removeFirst, if_neg hx, List.toFinset_cons, ih h.2]
      rw [Finset.erase_insert_of_ne (Ne.symm (fun he => hx he.symm))]

theorem alookup_aerase_self {α β : Type} [DecidableEq α]
    {l : List (α × β)} (k : α) (h : keysNodup l) : alookup (aerase l k) k = none := by
  induction l with
  | nil => rfl
  | cons e t ih =>
    obtain ⟨k₀, v₀⟩ := e
    unfold keysNodup at h
    rw [List.map_cons, List.nodup_cons] at h
    by_cases hk : k₀ = k
    · subst hk
      simp only [aerase, if_pos rfl]
      exact alookup_eq_none_of_not_mem_keys h.1
    · simp [aerase, hk, alookup, ih h.2]

theorem mem_aupdate {α β : Type} [DecidableEq α]
    {l : List (α × β)} {k : α} {v : β} {e : α × β} (h : e ∈ aupdate l k v) :
    e ∈ l ∨ e = (k, v) := by
  induction l with
  | nil => simp [aupdate] at h; simp [h]
  | cons e₀ t ih =>
    obtain ⟨k₀, v₀⟩ := e₀
    by_cases hk : k₀ = k
    · simp only [aupdate, if_pos hk, List.mem_cons] at h
      rcases h with h | h
      · exact Or.inr h
      · exact Or.inl (List.mem_cons_of_mem _ h)
    · simp only [aupdate, if_neg hk, List.mem_cons] at h
      rcases h with h | h
      · exact Or.inl (by simp [h])
      · rcases ih h with h' | h'
        · exact Or.inl (List.mem_cons_of_mem _ h')
        · exact Or.inr h'

theorem mem_of_mem_aerase {α β : Type} [DecidableEq α]
    {l : List (α × β)} {k : α} {e : α × β} (h : e ∈ aerase l k) : e ∈ l := by
  induction l with
  | nil => simp [aerase] at h
  | cons e₀ t ih =>
    obtain ⟨k₀, v₀⟩ := e₀
    by_cases hk : k₀ = k
    · simp only [aerase, if_pos hk] at h
      exact List.mem_cons_of_mem _ h
    · simp only [aerase, if_neg hk, List.mem_cons] at h
      rcases h with h | h
      · simp [h]
      · exact List.mem_cons_of_mem _ (ih h)

theorem publishersOf_registryPublish (reg : List (Str × List Str)) (f u : Str) :
    publishersOf (registryPublish reg f u) f =
      if u ∈ publishersOf reg f then publishersOf reg f
      else publishersOf reg f ++ [u] := by
  unfold publishersOf registryPublish
  cases h : alookup reg f with
  | none => simp [h, alookup_aupdate_self]
  | some pubs =>
    by_cases hu : u ∈ pubs
    · simp [h, hu]
    · simp [h, hu, alookup_aupdate_self]

theorem keysNodup_registryPublish (reg : List (Str × List Str)) (f u : Str)
    (h : keysNodup reg) : keysNodup (registryPublish reg f u) := by
  unfold registryPublish
  cases ha : alookup reg f with
  | none => exact keysNodup_aupdate f [u] h
  | some pubs =>
    by_cases hu : u ∈ pubs
    · simpa [hu] using h
    · simpa [hu] using keysNodup_aupdate f (pubs ++ [u]) h

theorem publishersOf_registryUnpublish (reg : List (Str × List Str)) (f u : Str)
    (h : keysNodup reg) :
    publishersOf (registryUnpublish reg f u).1 f =
      removeFirst (publishersOf reg f) u := by
  unfold publishersOf registryUnpublish
  cases ha : alookup reg f with
  | none => simp [ha, removeFirst]
  | some pubs =>
    by_cases hu : u ∈ pubs
    · by_cases hre : removeFirst pubs u = []
      · simp [ha, hu, hre, alookup_aerase_self f h]
      · simp [ha, hu, hre, alookup_aupdate_self]
    · simp [ha, hu, removeFirst_of_not_mem hu]

theorem keysNodup_registryUnpublish (reg : List (Str × List Str)) (f u : Str)
    (h : keysNodup reg) : keysNodup (registryUnpublish reg f u).1 := by
  unfold registryUnpublish
  cases ha : alookup reg f with
  | none => simpa using h
  | some pubs =>
    by_cases hu : u ∈ pubs
    · by_cases hre : removeFirst pubs u = []
      · simp only [hu, if_pos, hre, if_true]
        unfold keysNodup
        rw [map_fst_aerase]
        exact h.sublist (removeFirst_sublist _ _)
      · simpa [hu, hre] using keysNodup_aupdate f (removeFirst pubs u) h
    · simpa [hu] using h

theorem registryUnpublish_failed (reg : List (Str × List Str)) (f u : Str)
    (h : u ∉ publishersOf reg f) : registryUnpublish reg f u = (reg, .failed) := by
  unfold publishersOf at h
  unfold registryUnpublish
  cases ha : alookup reg f with
  | none => rfl
  | some pubs =>
    rw [ha] at h
    simp only [Option.getD_some] at h
    simp [h]

theorem nodupPublishers_registryPublish (reg : List (Str × List Str)) (f u : Str)
    (h : (publishersOf reg f).Nodup) :
    (publishersOf (registryPublish reg f u) f).Nodup := by
  rw [publishersOf_registryPublish]
  by_cases hu : u ∈ publishersOf reg f
  · simpa [hu]
  · simp [hu, List.nodup_append, h]

theorem nodupPublishers_registryUnpublish (reg : List (Str × List Str)) (f u : Str)
    (hk : keysNodup reg) (h : (publishersOf reg f).Nodup) :
    (publishersOf (registryUnpublish reg f u).1 f).Nodup := by
  rw [publishersOf_registryUnpublish reg f u hk]
  exact h.sublist (removeFirst_sublist _ _)

theorem applyPubOp_invariants (f : Str) (reg : List (Str × List Str)) (op : PubOp)
    (hk : keysNodup reg) (hnd : (publishersOf reg f).Nodup) :
    keysNodup (applyPubOp f reg op) ∧
    (publishersOf (applyPubOp f reg op) f).Nodup ∧
    (publishersOf (applyPubOp f reg op) f).toFinset =
      (match op with
       | .pub u => insert u (publishersOf reg f).toFinset
       | .unp u => (publishersOf reg f).toFinset.erase u) := by
  cases op with
  | pub u =>
    refine ⟨keysNodup_registryPublish reg f u hk,
      nodupPublishers_registryPublish reg f u hnd, ?_⟩
    show (publishersOf (registryPublish reg f u) f).toFinset = _
    rw [publishersOf_registryPublish]
    by_cases hu : u ∈ publishersOf reg f
    · simp only [hu, if_true]
      exact (Finset.insert_eq_self.mpr (List.mem_toFinset.mpr hu)).symm
    · simp only [hu, if_false, List.toFinset_append]
      simp [Finset.union_comm, Finset.insert_eq]
  | unp u =>
    refine ⟨keysNodup_registryUnpublish reg f u hk,
      nodupPublishers_registryUnpublish reg f u hk hnd, ?_⟩
    show (publishersOf ((registryUnpublish reg f u).1) f).toFinset = _
    rw [publishersOf_registryUnpublish reg f u hk]
    exact toFinset_removeFirst u hnd

theorem alookup_eq_some_publishersOf {reg : List (Str × List Str)} {f : Str}
    (h : publishersOf reg f ≠ []) :
    alookup reg f = some (publishersOf reg f) := by
  unfold publishersOf at h ⊢
  cases ha : alookup reg f with
  | none => rw [ha] at h; simp at h
  | some pubs => rfl

theorem eq_singleton_of_all_eq {α : Type} {l : List α} {u : α} (hnd : l.Nodup)
    (hall : ∀ v ∈ l, v = u) (hmem : u ∈ l) : l = [u] := by
  cases l with
  | nil => simp at hmem
  | cons x t =>
    rw [List.nodup_cons] at hnd
    have hx : x = u := hall x (List.mem_cons_self x t)
    subst hx
    cases t with
    | nil => rfl
    | cons y t' =>
      have hy : y = x := hall y (by simp)
      subst hy
      simp at hnd

theorem get_loop_eq (clients : List (Addr × ClientData)) (req : Str)
    (pubs : List Str) :
    get_loop clients req pubs =
      (pubs.find? (eligible clients req)).map (formatPeerReply clients) := by
  induction pubs with
  | nil => rfl
  | cons p rest ih =>
    by_cases hreq : p = req
    · have he : eligible clients req p = false := by simp [eligible, hreq]
      rw [List.find?_cons_of_neg _ (by simp [he])]
      simp [get_loop, hreq, ih]
    · cases hfp : find_peer clients p with
      | none =>
        have he : eligible clients req p = false := by simp [eligible, hfp]
        rw [List.find?_cons_of_neg _ (by simp [he])]
        simp [get_loop, hreq, hfp, ih]
      | some q =>
        obtain ⟨a, d⟩ := q
        cases htcp : d.tcp_address with
        | none =>
          have he : eligible clients req p = false := by
            simp [eligible, hfp, htcp]
          rw [List.find?_cons_of_neg _ (by simp [he])]
          simp [get_loop, hreq, hfp, htcp, ih]
        | some ipport =>
          obtain ⟨ip, port⟩ := ipport
          have he : eligible clients req p = true := by
            simp [eligible, hfp, htcp, hreq]
          rw [List.find?_cons_of_pos _ (by simp [he])]
          simp [get_loop, hreq, hfp, htcp, formatPeerReply]

theorem mem_sweep (s : ServerState) (now : Int) (a : Addr) (d : ClientData) :
    (a, d) ∈ (check_for_inactive_clients now s).active_clients ↔
      ((a, d) ∈ s.active_clients ∧ now - d.last_heartbeat ≤ HEARTBEAT_TIMEOUT) := by
  simp [check_for_inactive_clients, List.mem_filter]

/-! ### The claims -/

/-- Claim C1 fails as stated: with `ab` published by both the requester `u` and
another user `v`, the claim predicts a reply listing `ab` (its publisher set minus
`u` is `{v}`, non-empty), but the handler replies with the `No files found`
sentinel because it drops every file whose publisher list contains the requester
at all. -/
theorem C1_counterexample : ¬ C1Statement := by
  intro h
  have hc := h ⟨[(("h".data, 1), ⟨"u".data, 0, none⟩)],
      [("ab".data, ["u".data, "v".data])], []⟩
    ("h".data, 1) ⟨"u".data, 0, none⟩ "sch a".data (by decide)
  exact absurd hc (by decide)

/-- Claim C1 (amended): for every authenticated requester, the SEARCH handler
replies with exactly the published filenames that contain the search substring
as a literal (case-sensitive) and whose publisher list does not contain the
requester's username at all, and with the `No files found` sentinel when no
filename qualifies. -/
theorem C1_search_excludes_requester_files (s : ServerState) (addr : Addr)
    (d : ClientData) (msg : Str)
    (hauth : alookup s.active_clients addr = some d) :
    handle_search_files addr msg s =
      (s, some
        (if matching_files s.published_files (parse_command msg).2 d.username = []
         then RESP_NO_FILES_FOUND
         else joinComma
           (matching_files s.published_files (parse_command msg).2 d.username))) ∧
    ∀ fn, fn ∈ matching_files s.published_files (parse_command msg).2 d.username ↔
      ∃ pubs, (fn, pubs) ∈ s.published_files ∧
        strContains fn (parse_command msg).2 = true ∧ d.username ∉ pubs := by
  constructor
  · simp [handle_search_files, hauth]
  · intro fn
    simp only [matching_files, List.mem_map, List.mem_filter, Bool.and_eq_true,
      decide_eq_true_eq]
    constructor
    · rintro ⟨⟨f, pubs⟩, ⟨hmem, hsub, hnot⟩, rfl⟩
      exact ⟨pubs, hmem, hsub, hnot⟩
    · rintro ⟨pubs, hmem, hsub, hnot⟩
      exact ⟨(fn, pubs), ⟨hmem, hsub, hnot⟩, rfl⟩

/-- Witness for C1: a concrete search where `doc` matches `document.txt` but not
the near-miss `DOC.txt` is answered with exactly `document.txt`. -/
theorem C1_witness :
    handle_search_files ("h".data, 1) "sch doc".data
      ⟨[(("h".data, 1), ⟨"searcher".data, 0, none⟩)],
       [("document.txt".data, ["other".data]), ("DOC.txt".data, ["other".data])],
       []⟩ =
      (⟨[(("h".data, 1), ⟨"searcher".data, 0, none⟩)],
        [("document.txt".data, ["other".data]), ("DOC.txt".data, ["other".data])],
        []⟩, some "document.txt".data) :=
  ((C1_search_excludes_requester_files
      ⟨[(("h".data, 1), ⟨"searcher".data, 0, none⟩)],
       [("document.txt".data, ["other".data]), ("DOC.txt".data, ["other".data])],
       []⟩
      ("h".data, 1) ⟨"searcher".data, 0, none⟩ "sch doc".data (by decide)).1).trans
    (by decide)

/-- Claim C2: for every GET from an authenticated requester, an unregistered
filename is answered `File not found`; otherwise the reply names the first
publisher in entry order that is not the requester, has a current session, and
has a set data endpoint, formatted `<username> <host> <port>`; if no publisher
qualifies the reply is the distinct `No active peer has this file`. -/
theorem C2_get_resolution (s : ServerState) (addr : Addr) (d : ClientData)
    (msg : Str) (hauth : alookup s.active_clients addr = some d) :
    (alookup s.published_files (parse_command msg).2 = none →
      handle_get_request addr msg s = .reply RESP_FILE_NOT_FOUND) ∧
    ∀ pubs, alookup s.published_files (parse_command msg).2 = some pubs →
      handle_get_request addr msg s = .reply
        (match pubs.find? (eligible s.active_clients d.username) with
         | some p => formatPeerReply s.active_clients p
         | none => RESP_NO_ACTIVE_PEER_HAS_FILE) := by
  constructor
  · intro hnone
    simp [handle_get_request, hauth, hnone]
  · intro pubs hsome
    simp only [handle_get_request, hauth, hsome, get_loop_eq]
    cases hf : pubs.find? (eligible s.active_clients d.username) with
    | none => simp [hf]
    | some p => simp [hf]

/-- Witness for C2: peer B resolves `report.pdf` published by peer A, whose
session carries the endpoint `(127.0.0.1, 9001)`. -/
theorem C2_witness :
    handle_get_request ("hB".data, 2) "get report.pdf".data
      ⟨[(("hA".data, 1), ⟨"A".data, 0, some ("127.0.0.1".data, "9001".data)⟩),
        (("hB".data, 2), ⟨"B".data, 0, none⟩)],
       [("report.pdf".data, ["A".data])], []⟩ =
      .reply "A 127.0.0.1 9001".data :=
  ((C2_get_resolution
      ⟨[(("hA".data, 1), ⟨"A".data, 0, some ("127.0.0.1".data, "9001".data)⟩),
        (("hB".data, 2), ⟨"B".data, 0, none⟩)],
       [("report.pdf".data, ["A".data])], []⟩
      ("hB".data, 2) ⟨"B".data, 0, none⟩ "get report.pdf".data
      (by decide)).2 ["A".data] (by decide)).trans (by decide)

/-- Claim C3 is violated by the GET handler: `handle_get_request` indexes the
session table without a membership check, so a `get` datagram from an address
with no active session lets a `KeyError` escape the handler (`.exn`); the `run`
loop's catch-all then drops the message without any reply. Every other handler
returns or replies instead. -/
theorem C3_get_unauthenticated_raises :
    handle_get_request ("h".data, 1) "get f".data ⟨[], [], []⟩ = .exn ∧
    run_step 0 ("h".data, 1) "get f".data ⟨[], [], []⟩ = (⟨[], [], []⟩, none) := by
  constructor <;> decide

/-- Claim C4 fails as stated: the datagram `HBT x` has leading token `HBT`, so
the claim classifies it as HEARTBEAT, but dispatch compares the whole message
against `HBT` and falls through to the unknown branch. -/
theorem C4_counterexample : ¬ C4Statement := by
  intro h
  have hh := ((h "HBT x".data).2.2.2.2.2.1).mpr (by decide)
  exact absurd hh (by decide)

/-- Claim C4 (amended): dispatch classifies a datagram as HEARTBEAT, LIST_PEERS
or LIST_FILES exactly when the whole stripped message equals `HBT`, `lap`, `lpf`
respectively, and as PUBLISH, UNPUBLISH, REPORT_DATA_ENDPOINT, SEARCH, GET or
AUTH exactly when the message merely starts with `pub`, `unp`, `TCP`, `sch`,
`get`, `auth` (prefix match, not leading-token equality); a datagram matching
none of these patterns is answered with the generic `ERR` token. -/
theorem C4_dispatch_prefix_correct (msg : Str) :
    (dispatch msg = .heartbeat ↔ msg = MSG_HEARTBEAT) ∧
    (dispatch msg = .publish ↔ isPref CMD_PUBLISH msg = true) ∧
    (dispatch msg = .unpublish ↔ isPref CMD_UNPUBLISH msg = true) ∧
    (dispatch msg = .tcp ↔ isPref MSG_TCP msg = true) ∧
    (dispatch msg = .listPeers ↔ msg = CMD_LIST_ACTIVE_PEERS) ∧
    (dispatch msg = .listFiles ↔ msg = CMD_LIST_PUBLISHED_FILES) ∧
    (dispatch msg = .search ↔ isPref CMD_SEARCH msg = true) ∧
    (dispatch msg = .get ↔ isPref CMD_GET msg = true) ∧
    (dispatch msg = .auth ↔ isPref MSG_AUTH msg = true) ∧
    (dispatch msg = .unknown ↔
      (msg ≠ MSG_HEARTBEAT ∧ isPref CMD_PUBLISH msg = false ∧
       isPref CMD_UNPUBLISH msg = false ∧ isPref MSG_TCP msg = false ∧
       msg ≠ CMD_LIST_ACTIVE_PEERS ∧ msg ≠ CMD_LIST_PUBLISHED_FILES ∧
       isPref CMD_SEARCH msg = false ∧ isPref CMD_GET msg = false ∧
       isPref MSG_AUTH msg = false)) ∧
    (dispatch msg = .unknown →
      ∀ (now : Int) (addr : Addr) (st : ServerState),
        step now addr msg st = (st, .reply MSG_ERROR)) :=
  ⟨dispatch_eq_heartbeat msg, dispatch_eq_publish msg, dispatch_eq_unpublish msg,
   dispatch_eq_tcp msg, dispatch_eq_listPeers msg, dispatch_eq_listFiles msg,
   dispatch_eq_search msg, dispatch_eq_get msg, dispatch_eq_auth msg,
   dispatch_eq_unknown msg, fun h _ _ _ => by simp [step, h]⟩

/-- Witness for C4: the unmatched datagram `zzz` is answered with `ERR`. -/
theorem C4_witness :
    step 0 ("h".data, 1) "zzz".data ⟨[], [], []⟩ =
      (⟨[], [], []⟩, .reply MSG_ERROR) :=
  (C4_dispatch_prefix_correct "zzz".data).2.2.2.2.2.2.2.2.2.2 (by decide) 0
    ("h".data, 1) ⟨[], [], []⟩

/-- Claim C5: for every well-formed registry, the publisher set of `f` after any
sequence of publish/unpublish operations equals the fold of idempotent inserts
and erases over the sequence, and unpublishing an absent username returns the
registry unchanged with the `failed` outcome (reported to the client as
`File unpublication failed`) rather than raising. -/
theorem C5_publish_unpublish_fold (reg : List (Str × List Str)) (f : Str)
    (ops : List PubOp) (hk : keysNodup reg) (hnd : (publishersOf reg f).Nodup) :
    (publishersOf (applyPubOps f reg ops) f).toFinset =
      netEffect (publishersOf reg f).toFinset ops ∧
    ∀ u, u ∉ publishersOf reg f →
      registryUnpublish reg f u = (reg, .failed) := by
  constructor
  · induction ops generalizing reg with
    | nil => rfl
    | cons op rest ih =>
      obtain ⟨hk1, hnd1, hstep⟩ := applyPubOp_invariants f reg op hk hnd
      show (publishersOf (applyPubOps f (applyPubOp f reg op) rest) f).toFinset = _
      rw [ih (applyPubOp f reg op) hk1 hnd1, hstep]
      cases op <;> rfl
  · intro u hu
    exact registryUnpublish_failed reg f u hu

/-- Witness for C5: a five-operation sequence on an empty registry. -/
theorem C5_witness :
    (publishersOf
        (applyPubOps "f".data []
          [PubOp.pub "a".data, PubOp.pub "a".data, PubOp.unp "b".data,
            PubOp.unp "a".data, PubOp.pub "c".data]) "f".data).toFinset =
      netEffect (publishersOf ([] : List (Str × List Str)) "f".data).toFinset
        [PubOp.pub "a".data, PubOp.pub "a".data, PubOp.unp "b".data,
          PubOp.unp "a".data, PubOp.pub "c".data] :=
  (C5_publish_unpublish_fold [] "f".data _ (by decide) (by decide)).1

/-- Claim C6 fails as stated: starting from a registry where `f` is published by
`v`, publishing and then unpublishing `f` as `u` leaves `f` registered (with
publisher `v`), so `f` is not absent afterwards. -/
theorem C6_counterexample : ¬ C6Statement := by
  intro h
  have hb := h.2 [("f".data, ["v".data])] "f".data "u".data (by decide)
  exact hb (by decide)

/-- Claim C6 (amended): publish and unpublish both preserve the invariant that
no registry entry has an empty publisher list, and publish then unpublish of
`(f, u)` leaves `f` unregistered provided no user other than `u` published `f`
beforehand (in particular when `f` was unregistered). -/
theorem C6_registry_no_empty_entries (reg : List (Str × List Str)) (f u : Str)
    (hk : keysNodup reg) (hinv : regInvariant reg)
    (hnd : (publishersOf reg f).Nodup) :
    regInvariant (registryPublish reg f u) ∧
    (∀ u', regInvariant (registryUnpublish reg f u').1) ∧
    ((∀ v ∈ publishersOf reg f, v = u) →
      f ∉ (applyPubOps f reg [PubOp.pub u, PubOp.unp u]).map Prod.fst) := by
  refine ⟨?_, ?_, ?_⟩
  · intro e he
    unfold registryPublish at he
    cases ha : alookup reg f with
    | none =>
      simp only [ha] at he
      rcases mem_aupdate he with h' | h'
      · exact hinv e h'
      · simp [h']
    | some pubs =>
      simp only [ha] at he
      by_cases hu : u ∈ pubs
      · simp only [hu, if_true] at he
        exact hinv e he
      · simp only [hu, if_false] at he
        rcases mem_aupdate he with h' | h'
        · exact hinv e h'
        · simp [h']
  · intro u' e he
    unfold registryUnpublish at he
    cases ha : alookup reg f with
    | none =>
      simp only [ha] at he
      exact hinv e he
    | some pubs =>
      simp only [ha] at he
      by_cases hu : u' ∈ pubs
      · simp only [hu, if_true] at he
        by_cases hre : removeFirst pubs u' = []
        · simp only [hre, if_true] at he
          exact hinv e (mem_of_mem_aerase he)
        · simp only [hre, if_false] at he
          rcases mem_aupdate he with h' | h'
          · exact hinv e h'
          · rw [h']
            exact hre
      · simp only [hu, if_false] at he
        exact hinv e he
  · intro hsub
    have hp1 : publishersOf (registryPublish reg f u) f = [u] := by
      rw [publishersOf_registryPublish]
      by_cases hu : u ∈ publishersOf reg f
      · rw [if_pos hu]
        exact eq_singleton_of_all_eq hnd hsub hu
      · rw [if_neg hu]
        have hnil : publishersOf reg f = [] :=
          List.eq_nil_iff_forall_not_mem.mpr fun x hx => hu (hsub x hx ▸ hx)
        rw [hnil]
        rfl
    have h1 : alookup (registryPublish reg f u) f = some [u] := by
      have h2 := @alookup_eq_some_publishersOf (registryPublish reg f u) f
        (by rw [hp1]; simp)
      rwa [hp1] at h2
    show f ∉ ((registryUnpublish (registryPublish reg f u) f u).1.map Prod.fst)
    unfold registryUnpublish
    rw [h1]
    simp only [List.mem_singleton, if_true, removeFirst, if_pos]
    rw [map_fst_aerase]
    exact not_mem_removeFirst_self (keysNodup_registryPublish reg f u hk)

/-- Witness for C6: publish then unpublish of a fresh filename leaves it
absent from the registry. -/
theorem C6_witness :
    "f".data ∉
      (applyPubOps "f".data [("g".data, ["w".data])]
          [PubOp.pub "u".data, PubOp.unp "u".data]).map Prod.fst :=
  (C6_registry_no_empty_entries [("g".data, ["w".data])] "f".data "u".data
      (by decide) (by decide) (by decide)).2.2 (by decide)

/-- Claim C7: a sweep at time `now` keeps a session exactly when
`now - last_heartbeat` is within the heartbeat timeout (so every session whose
last heartbeat is older than the timeout is removed), and a session survives any
sequence of sweeps all performed within its timeout window. -/
theorem C7_sweep_exact (s : ServerState) (now : Int) :
    (∀ a d, (a, d) ∈ (check_for_inactive_clients now s).active_clients ↔
        ((a, d) ∈ s.active_clients ∧
          now - d.last_heartbeat ≤ HEARTBEAT_TIMEOUT)) ∧
    (∀ (times : List Int) (a : Addr) (d : ClientData),
        (a, d) ∈ s.active_clients →
        (∀ t ∈ times, t - d.last_heartbeat ≤ HEARTBEAT_TIMEOUT) →
        (a, d) ∈
          (times.foldl (fun st t => check_for_inactive_clients t st)
            s).active_clients) := by
  refine ⟨fun a d => mem_sweep s now a d, ?_⟩
  intro times
  induction times generalizing s with
  | nil => intro a d h _; exact h
  | cons t ts ih =>
    intro a d h hall
    exact ih (check_for_inactive_clients t s) a d
      ((mem_sweep s t a d).mpr ⟨h, hall t (by simp)⟩)
      (fun t' ht' => hall t' (by simp [ht']))

/-- Witness for C7: a session heartbeated at time 0 survives sweeps at times
1, 2, 3 but is gone after a sweep at time 10. -/
theorem C7_witness :
    ((("h".data, 1), (⟨"u".data, 0, none⟩ : ClientData)) ∈
      ([1, 2, 3].foldl (fun st t => check_for_inactive_clients t st)
        (⟨[(("h".data, 1), ⟨"u".data, 0, none⟩)], [], []⟩ :
          ServerState)).active_clients) ∧
    ¬ ((("h".data, 1), (⟨"u".data, 0, none⟩ : ClientData)) ∈
      (check_for_inactive_clients 10
        (⟨[(("h".data, 1), ⟨"u".data, 0, none⟩)], [], []⟩ :
          ServerState)).active_clients) :=
  ⟨(C7_sweep_exact ⟨[(("h".data, 1), ⟨"u".data, 0, none⟩)], [], []⟩ 0).2
      [1, 2, 3] _ _ (by decide) (by decide),
   fun hmem => by
    have h2 := ((C7_sweep_exact ⟨[(("h".data, 1), ⟨"u".data, 0, none⟩)], [], []⟩
        10).1 ("h".data, 1) ⟨"u".data, 0, none⟩).mp hmem
    exact absurd h2.2 (by decide)⟩

/-- Claim C8: the liveness sweep leaves the publication registry (and the
credential table) completely unchanged, for every starting state and time. -/
theorem C8_sweep_preserves_registry (s : ServerState) (now : Int) :
    (check_for_inactive_clients now s).published_files = s.published_files ∧
    (check_for_inactive_clients now s).credentials = s.credentials :=
  ⟨rfl, rfl⟩

/-- Claim C9: an AUTH request whose username is already bound to a session at a
different address is answered with `ERR` regardless of the supplied password,
and the server state is unchanged. -/
theorem C9_auth_duplicate_username_rejected (s : ServerState) (addr : Addr)
    (msg : Str) (now : Int) (tok u pw : Str)
    (hw : words msg = [tok, u, pw])
    (hdup : ∃ p ∈ s.active_clients, p.2.username = u ∧ p.1 ≠ addr) :
    authenticate_client now addr msg s = (s, some MSG_ERROR) := by
  obtain ⟨p, hp, hpu, -⟩ := hdup
  have hany : (s.active_clients.any fun q => decide (q.2.username = u)) = true :=
    List.any_eq_true.mpr ⟨p, hp, by simp [hpu]⟩
  unfold authenticate_client
  rw [hw]
  simp [hany]

/-- Witness for C9: `alice`, already active from another address, is rejected
even though the password matches the credential table. -/
theorem C9_witness :
    authenticate_client 5 ("h2".data, 2) "auth alice password123".data
      ⟨[(("h1".data, 1), ⟨"alice".data, 0, none⟩)], [],
       [("alice".data, "password123".data)]⟩ =
      (⟨[(("h1".data, 1), ⟨"alice".data, 0, none⟩)], [],
        [("alice".data, "password123".data)]⟩, some MSG_ERROR) :=
  C9_auth_duplicate_username_rejected _ _ _ 5 "auth".data "alice".data
    "password123".data (by decide) (by decide)

/-- Claim C10: a `lap` or `lpf` request from an address with no active session
produces no response datagram at all: the handlers return before sending
anything. -/
theorem C10_unauthenticated_list_requests_silent (s : ServerState) (addr : Addr)
    (h : alookup s.active_clients addr = none) :
    handle_list_active_peers addr s = (s, none) ∧
    handle_list_published_files addr s = (s, none) := by
  constructor <;>
    simp [handle_list_active_peers, handle_list_published_files, h]

/-- Witness for C10: concrete unauthenticated address, non-empty peer and file
tables; both handlers stay silent. -/
theorem C10_witness :
    handle_list_active_peers ("x".data, 9)
      ⟨[(("h".data, 1), ⟨"u".data, 0, none⟩)], [("f".data, ["u".data])], []⟩ =
      (⟨[(("h".data, 1), ⟨"u".data, 0, none⟩)], [("f".data, ["u".data])], []⟩,
        none) ∧
    handle_list_published_files ("x".data, 9)
      ⟨[(("h".data, 1), ⟨"u".data, 0, none⟩)], [("f".data, ["u".data])], []⟩ =
      (⟨[(("h".data, 1), ⟨"u".data, 0, none⟩)], [("f".data, ["u".data])], []⟩,
        none) :=
  C10_unauthenticated_list_requests_silent _ _ (by decide)

end PeerSync
